import Mathlib

/-!
Verification of the schema-managed table store of the `skypydb` repository
(`src/skypydb/db/database.py`), as a shallow embedding in Lean 4.

Modelling conventions:
* Python dictionaries are association lists (`List (String × α)`) preserving
  insertion order; assignment to an existing key keeps its position, a new
  key is appended (matching CPython dict semantics).
* SQLite tables are modelled as a list of column names plus a list of stored
  rows; every stored cell is `Option String` (`none` = SQL NULL), reflecting
  that the physical columns are all TEXT and `insert_data` stringifies every
  bound value with `str`.
* Python floats are modelled by their exact rational value (`Rat`).  IEEE-754
  rounding, overflow and the special values inf/nan lie outside the model;
  no property considered here depends on them.
* Randomness (`uuid.uuid4()`) and the clock (`datetime.now().isoformat()`)
  are oracle inputs threaded as explicit `String` arguments.
* JSON round-tripping of the `{str: str}` config documents stored in
  `_skypy_config` is the identity and is modelled as such.
-/

mutual

/-- Python runtime values as they occur in rows, filters and configs.
Lists carry their own spine type `ValueList` (isomorphic to `List Value`)
so that all recursion over values is structural. -/
inductive Value where
  | vStr (s : String)
  | vInt (n : Int)
  | vFloat (q : Rat)
  | vBool (b : Bool)
  | vNone
  | vList (l : ValueList)

/-- The spine of a Python list value. -/
inductive ValueList where
  | nil
  | cons (head : Value) (tail : ValueList)

end

/-- The elements of a list value, as a Lean list. -/
def ValueList.toList : ValueList → List Value
  | .nil => []
  | .cons v rest => v :: rest.toList

/-- Python `len(l) == 0` for a list value. -/
def ValueList.isEmpty : ValueList → Bool
  | .nil => true
  | .cons _ _ => false

/-- First-match association-list lookup (Python `d[k]` / `k in d`). -/
def alookup {α : Type} : List (String × α) → String → Option α
  | [], _ => none
  | (k2, v) :: rest, k => if k2 = k then some v else alookup rest k

/-- Python `d[k] = v`: overwrite in place if the key exists, else append. -/
def dictSet {α : Type} (d : List (String × α)) (k : String) (v : α) :
    List (String × α) :=
  if d.any (fun p => p.1 = k) then
    d.map (fun p => if p.1 = k then (k, v) else p)
  else
    d ++ [(k, v)]

/-- Keys of a dictionary, in insertion order. -/
def dictKeys {α : Type} (d : List (String × α)) : List String :=
  d.map Prod.fst

/-- ASCII lower-casing of one character (model of `str.lower`). -/
def asciiLower (c : Char) : Char :=
  if 'A' ≤ c ∧ c ≤ 'Z' then Char.ofNat (c.toNat + 32) else c

/-- Characters stripped by Python `int(...)`/`float(...)` around a numeric
literal (ASCII whitespace; Python also strips some unicode spaces, outside
the model). -/
def isPyWhite (c : Char) : Bool :=
  c = ' ' ∨ c = '\t' ∨ c = '\n' ∨ c = '\r' ∨ c = Char.ofNat 11 ∨ c = Char.ofNat 12

/-- Strip leading and trailing whitespace from a character list. -/
def pyStrip (cs : List Char) : List Char :=
  ((cs.dropWhile isPyWhite).reverse.dropWhile isPyWhite).reverse

/-- Consume a run of decimal digits in which single underscores may appear
between digits (CPython numeric-literal grammar); returns the digits and the
unconsumed remainder.  Must be entered on a digit. -/
def udigitsAux : List Char → List Char × List Char
  | [] => ([], [])
  | '_' :: d :: rest =>
    if d.isDigit then
      let p := udigitsAux rest
      (d :: p.1, p.2)
    else ([], '_' :: d :: rest)
  | ['_'] => ([], ['_'])
  | c :: rest =>
    if c.isDigit then
      let p := udigitsAux rest
      (c :: p.1, p.2)
    else ([], c :: rest)

/-- Consume a digit run (with underscores) if the input starts with a digit. -/
def takeUDigits (cs : List Char) : List Char × List Char :=
  match cs with
  | c :: _ => if c.isDigit then udigitsAux cs else ([], cs)
  | [] => ([], cs)

/-- Value of a list of decimal digits. -/
def digitsToNat (ds : List Char) : Nat :=
  ds.foldl (fun a c => a * 10 + (c.toNat - 48)) 0

/-- An unsigned decimal literal filling the whole input. -/
def parseUnsigned (cs : List Char) : Option Nat :=
  match cs with
  | c :: _ =>
    if c.isDigit then
      let p := udigitsAux cs
      if p.2 = [] then some (digitsToNat p.1) else none
    else none
  | [] => none

/-- Model of Python `int(s)` on a text argument: optional surrounding
whitespace, optional sign, decimal digits with underscores (ASCII only;
base-10 only).  `none` models the `ValueError` raised on anything else. -/
def parsePyIntString (s : String) : Option Int :=
  match pyStrip s.data with
  | '+' :: rest => (parseUnsigned rest).map Int.ofNat
  | '-' :: rest => (parseUnsigned rest).map (fun n => -(n : Int))
  | rest => (parseUnsigned rest).map Int.ofNat

/-- Scale a rational by an integer power of ten. -/
def ratTimesPow10 (q : Rat) (e : Int) : Rat :=
  match e with
  | .ofNat k => q * ((10 : Rat) ^ k)
  | .negSucc k => q / ((10 : Rat) ^ (k + 1))

/-- Exponent suffix of a float literal: empty, or `e`/`E` then a signed
decimal run filling the rest of the input. -/
def parseExp (cs : List Char) : Option Int :=
  match cs with
  | [] => some 0
  | 'e' :: rest =>
    (match rest with
     | '+' :: r2 => (parseUnsigned r2).map Int.ofNat
     | '-' :: r2 => (parseUnsigned r2).map (fun n => -(n : Int))
     | r2 => (parseUnsigned r2).map Int.ofNat)
  | 'E' :: rest =>
    (match rest with
     | '+' :: r2 => (parseUnsigned r2).map Int.ofNat
     | '-' :: r2 => (parseUnsigned r2).map (fun n => -(n : Int))
     | r2 => (parseUnsigned r2).map Int.ofNat)
  | _ => none

/-- Unsigned body of a float literal: `digits [. digits] [exp]` or
`. digits [exp]`, with at least one digit overall. -/
def parseFloatBody (cs : List Char) : Option Rat :=
  let p1 := takeUDigits cs
  match p1.2 with
  | '.' :: rest =>
    let p2 := takeUDigits rest
    if p1.1 = [] ∧ p2.1 = [] then none
    else
      (parseExp p2.2).map (fun e =>
        ratTimesPow10
          ((digitsToNat p1.1 * 10 ^ p2.1.length + digitsToNat p2.1 : Nat) : Rat)
          (e - p2.1.length))
  | r =>
    if p1.1 = [] then none
    else (parseExp r).map (fun e => ratTimesPow10 ((digitsToNat p1.1 : Nat) : Rat) e)

/-- Model of Python `float(s)` on a text argument, restricted to finite
decimal literals (Python additionally accepts `inf`/`infinity`/`nan`
spellings, which produce IEEE special values outside this model). -/
def parsePyFloatString (s : String) : Option Rat :=
  match pyStrip s.data with
  | '+' :: rest => parseFloatBody rest
  | '-' :: rest => (parseFloatBody rest).map (fun q => -q)
  | rest => parseFloatBody rest

/-- Truncation toward zero, the behaviour of Python `int(x)` on a float. -/
def ratTrunc (q : Rat) : Int :=
  q.num.tdiv (q.den : Int)

/-- Python truthiness (`bool(x)`) for the modelled value domain. -/
def pyTruthy : Value → Bool
  | .vStr s => s ≠ ""
  | .vInt n => n ≠ 0
  | .vFloat q => q ≠ 0
  | .vBool b => b
  | .vNone => false
  | .vList l => !l.isEmpty

mutual

/-- Python `repr(x)`, the renderer `str` applies to list elements: strings
gain surrounding single quotes (escaping of special characters inside a
string is outside the model; no property here depends on it). -/
def pyRepr : Value → String
  | .vStr s => "'" ++ s ++ "'"
  | .vInt n => toString n
  | .vFloat q => if q.den = 1 then toString q.num ++ ".0" else toString q
  | .vBool b => if b then "True" else "False"
  | .vNone => "None"
  | .vList l => "[" ++ ", ".intercalate (pyReprList l) ++ "]"

/-- `repr` of each element of a list value, in order. -/
def pyReprList : ValueList → List String
  | .nil => []
  | .cons v rest => pyRepr v :: pyReprList rest

end

/-- Model of Python `str(x)` for the modelled value domain.  `str` and
`repr` agree on everything except top-level strings.  For floats the
repository never depends on the rendering (Python prints the shortest
round-tripping decimal; the model prints the exact rational), and lists
only occur in filters where solely `str([]) = "[]"` is relevant. -/
def pyStr : Value → String
  | .vStr s => s
  | .vInt n => toString n
  | .vFloat q => if q.den = 1 then toString q.num ++ ".0" else toString q
  | .vBool b => if b then "True" else "False"
  | .vNone => "None"
  | .vList l => "[" ++ ", ".intercalate (pyReprList l) ++ "]"

/-- A Python row/filter dictionary. -/
abbrev Dict := List (String × Value)

/-- A stored SQLite row: each cell is TEXT (`some s`) or NULL (`none`),
keyed by column name in column order. -/
abbrev StoredRow := List (String × Option String)

/-- A physical SQLite table: ordered column names and stored rows. -/
structure Table where
  columns : List String
  rows : List StoredRow
deriving DecidableEq

/-- The database state: the user tables created through this layer, plus the
contents of the hidden `_skypy_config` table (`table_name ↦ normalized
config`; the JSON round trip on `{str: str}` documents is the identity). -/
structure DBState where
  tables : List (String × Table)
  configs : List (String × List (String × String))
deriving DecidableEq

/-- Replace the table stored under a name (used after mutating a table). -/
def setTable (s : DBState) (n : String) (t : Table) : DBState :=
  { s with tables := s.tables.map (fun p => if p.1 = n then (n, t) else p) }

/-- `Database.table_exists`. -/
def table_exists (s : DBState) (n : String) : Bool :=
  (alookup s.tables n).isSome

/-- Errors surfaced by the modelled operations (`TableAlreadyExistsError`,
`TableNotFoundError`, sqlite3 errors, and the guard `ValueError` raised by
`delete_data` when called without filters). -/
inductive Err where
  | alreadyExists
  | tableNotFound
  | noSuchColumn (c : String)
  | duplicateColumn (c : String)
  | valueErrorNoFilters
deriving DecidableEq

/-- `Database.create_table`: reject if present, else create with exactly the
`id` and `created_at` columns.  On error the state is unchanged. -/
def create_table (s : DBState) (n : String) : DBState × Option Err :=
  if table_exists s n then (s, some .alreadyExists)
  else ({ s with tables := s.tables ++ [(n, ⟨["id", "created_at"], []⟩)] }, none)

/-- `Database.delete_table`: drop the physical table; the saved config rows
in `_skypy_config` are not touched. -/
def delete_table (s : DBState) (n : String) : DBState × Option Err :=
  if table_exists s n then
    ({ s with tables := s.tables.filter (fun p => p.1 ≠ n) }, none)
  else (s, some .tableNotFound)

/-- `Database.get_table_columns` for an existing table. -/
def get_table_columns (t : Table) : List String :=
  t.columns

/-- The body of `Database.add_columns_if_needed`'s loop: a column already in
the up-front snapshot `existing` of the column set, or equal to one of the
reserved names, is skipped; otherwise it is appended as a TEXT column and
every existing row receives NULL for it (`ALTER TABLE ... ADD COLUMN`). -/
def addColStep (existing : List String) (acc : Table) (c : String) : Table :=
  if existing.contains c ∨ c = "id" ∨ c = "created_at" then acc
  else { columns := acc.columns ++ [c],
         rows := acc.rows.map (fun r => r ++ [(c, none)]) }

/-- `Database.add_columns_if_needed`: the existing column set is computed
once before the loop. -/
def add_columns_if_needed (t : Table) (cols : List String) : Table :=
  cols.foldl (addColStep t.columns) t

/-- The sublist of `cols` that `add_columns_if_needed` actually adds, in
order (derived characterization used by the theorems below). -/
def newCols (existing : List String) : List String → List String
  | [] => []
  | c :: rest =>
    if existing.contains c ∨ c = "id" ∨ c = "created_at" then newCols existing rest
    else c :: newCols existing rest

/-- Outcome of `Database.insert_data`.  `ok` carries the value of
`data["id"]` returned by the Python function (returned as-is, not
stringified); `keyErrorId` models the `KeyError` raised by the final
`return data["id"]` when the dictionary has no `id` key; `integrityError`
models the sqlite `IntegrityError` on a duplicate non-NULL primary key. -/
inductive InsertOutcome where
  | ok (v : Value)
  | tableNotFound
  | keyErrorId
  | integrityError

/-- The state of the caller's dictionary after `insert_data`'s first
mutation: `data["id"] = str(uuid.uuid4())` when `generate_id` is true. -/
def insertD1 (data : Dict) (generate_id : Bool) (uuid : String) : Dict :=
  if generate_id then dictSet data "id" (.vStr uuid) else data

/-- The state of the caller's dictionary after the second mutation:
`data["created_at"] = datetime.now().isoformat()` when absent. -/
def insertD2 (d1 : Dict) (now : String) : Dict :=
  if (alookup d1 "created_at").isSome then d1 else dictSet d1 "created_at" (.vStr now)

/-- The stored row produced by the INSERT statement: for each physical
column, the stringified dictionary value if the key is bound, else NULL. -/
def insertRow (cols : List String) (d2 : Dict) : StoredRow :=
  cols.map (fun c => (c, (alookup d2 c).map pyStr))

/-- The caller's dictionary after both in-place mutations. -/
def insertDict (data : Dict) (generate_id : Bool) (uuid now : String) : Dict :=
  insertD2 (insertD1 data generate_id uuid) now

/-- The table after `insert_data`'s dynamic column evolution: every
dictionary key outside the reserved pair is ensured to exist as a column
(`add_columns_if_needed` on `[]` is the identity, matching the
`if columns_to_add:` guard in the source). -/
def insertT1 (t0 : Table) (d2 : Dict) : Table :=
  add_columns_if_needed t0 ((dictKeys d2).filter (fun c => c ≠ "id" ∧ c ≠ "created_at"))

/-- Whether a new row's non-NULL `id` collides with a stored row's (the
`id TEXT PRIMARY KEY` constraint; NULLs are exempt in SQLite). -/
def pkConflict (t1 : Table) (newRow : StoredRow) : Bool :=
  match alookup newRow "id" with
  | some (some iv) => t1.rows.any (fun r => alookup r "id" = some (some iv))
  | _ => false

/-- `Database.insert_data`, with the generated UUID string and the current
ISO timestamp supplied as oracle inputs `uuid` and `now`.

Returns the post-call database state, the post-call caller dictionary
(`insert_data` mutates `data` in place; the model returns the mutated
dictionary), and the outcome.  Effects happen in source order: the `id`
assignment when `generate_id`, the `created_at` default, the column
evolution (committed on its own), the row insertion (commit), and only then
the `return data["id"]` that can raise `KeyError` — so on `keyErrorId` the
row is already stored.  The `id TEXT PRIMARY KEY` column admits NULL in
SQLite, so a row inserted without an `id` key passes the constraint. -/
def insert_data (s : DBState) (n : String) (data : Dict) (generate_id : Bool)
    (uuid now : String) : DBState × Dict × InsertOutcome :=
  match alookup s.tables n with
  | none => (s, data, .tableNotFound)
  | some t0 =>
    let d2 := insertDict data generate_id uuid now
    let t1 := insertT1 t0 d2
    let s1 := setTable s n t1
    let newRow := insertRow t1.columns d2
    if pkConflict t1 newRow then (s1, d2, .integrityError)
    else
      let s2 := setTable s1 n { t1 with rows := t1.rows ++ [newRow] }
      match alookup d2 "id" with
      | some v => (s2, d2, .ok v)
      | none => (s2, d2, .keyErrorId)

/-- One atomic piece of a WHERE clause as assembled by `search` /
`delete_data`: the index disjunction over the non-reserved columns, a single
equality against a bound TEXT parameter, or an IN clause. -/
inductive Cond where
  | orEq (cols : List String) (v : String)
  | eq (col : String) (v : String)
  | inList (col : String) (vs : List String)

/-- Columns referenced by a condition (a missing one makes sqlite reject the
statement with `no such column`). -/
def condCols : Cond → List String
  | .orEq cols _ => cols
  | .eq c _ => [c]
  | .inList c _ => [c]

/-- First referenced column that is not on the table, if any. -/
def findMissingCol (columns : List String) (conds : List Cond) : Option String :=
  ((conds.flatMap condCols).filter (fun c => ¬ columns.contains c)).head?

/-- SQL truth of a condition on a stored row.  `NULL = x` and
`NULL IN (...)` are not true, so a NULL cell never matches. -/
def rowMatchesCond (r : StoredRow) : Cond → Bool
  | .orEq cols v => cols.any (fun c => alookup r c = some (some v))
  | .eq c v => alookup r c = some (some v)
  | .inList c vs =>
    match alookup r c with
    | some (some x) => vs.contains x
    | _ => false

/-- Conjunction of all assembled conditions (`" AND ".join`); no conditions
means `1=1`, i.e. every row matches. -/
def rowMatchesAll (conds : List Cond) (r : StoredRow) : Bool :=
  conds.all (rowMatchesCond r)

/-- The index disjunction `search` builds when `index` is provided: one
equality per non-reserved column, OR-ed; omitted entirely when the table has
no non-reserved columns. -/
def indexConds (t : Table) (index : Option String) : List Cond :=
  match index with
  | none => []
  | some iv =>
    let nonStd := t.columns.filter (fun c => c ≠ "id" ∧ c ≠ "created_at")
    if nonStd.isEmpty then [] else [.orEq nonStd iv]

/-- The filter conjuncts `search` builds: entries keyed `id`/`created_at`
are skipped; a non-empty list value becomes an IN clause over the
stringified elements; every other value (including the empty list, which
fails the `len(value) > 0` test) becomes an equality against `str(value)`. -/
def filterConds : List (String × Value) → List Cond
  | [] => []
  | (c, v) :: rest =>
    if c = "id" ∨ c = "created_at" then filterConds rest
    else
      match v with
      | .vList (.cons x xs) =>
        .inList c (((ValueList.cons x xs).toList).map pyStr) :: filterConds rest
      | w => .eq c (pyStr w) :: filterConds rest

/-- The filter conjuncts `delete_data` builds: identical to `search`'s
except that no key is skipped — `id` and `created_at` participate. -/
def deleteConds : List (String × Value) → List Cond
  | [] => []
  | (c, v) :: rest =>
    match v with
    | .vList (.cons x xs) =>
      .inList c (((ValueList.cons x xs).toList).map pyStr) :: deleteConds rest
    | w => .eq c (pyStr w) :: deleteConds rest

/-- `Database.search`: existence check, index disjunction plus filter
conjuncts combined with AND, rows returned as column-keyed dictionaries. -/
def search (s : DBState) (n : String) (index : Option String)
    (filters : List (String × Value)) : Except Err (List StoredRow) :=
  match alookup s.tables n with
  | none => .error .tableNotFound
  | some t =>
    let conds := indexConds t index ++ filterConds filters
    match findMissingCol t.columns conds with
    | some c => .error (.noSuchColumn c)
    | none => .ok (t.rows.filter (rowMatchesAll conds))

/-- `Database.get_all_data`. -/
def get_all_data (s : DBState) (n : String) : Except Err (List StoredRow) :=
  match alookup s.tables n with
  | none => .error .tableNotFound
  | some t => .ok t.rows

/-- `Database.delete_data`: existence check, guard against an empty filter
map, then delete the rows matching the conjunction of all filter conjuncts
and report `cursor.rowcount`.  On error the state is unchanged. -/
def delete_data (s : DBState) (n : String) (filters : List (String × Value)) :
    DBState × Except Err Nat :=
  match alookup s.tables n with
  | none => (s, .error .tableNotFound)
  | some t =>
    if filters.isEmpty then (s, .error .valueErrorNoFilters)
    else
      let conds := deleteConds filters
      match findMissingCol t.columns conds with
      | some c => (s, .error (.noSuchColumn c))
      | none =>
        (setTable s n { t with rows := t.rows.filter (fun r => !rowMatchesAll conds r) },
         .ok (t.rows.countP (fun r => rowMatchesAll conds r)))

/-- A value declared for a column in a raw (pre-normalization) config: one
of the four native Python type objects (`str`, `int`, `float`, `bool`), a
string literal, or any other object abstracted by its `str()` rendering. -/
inductive PyTypeVal where
  | tyStr
  | tyInt
  | tyFloat
  | tyBool
  | lit (s : String)
  | other (repr : String)
deriving DecidableEq

/-- The per-entry normalization of `Database._normalize_config`: each native
type object maps to its canonical tag, anything else is kept as its literal
string form (`str(col_type)`). -/
def normTag : PyTypeVal → String
  | .tyStr => "str"
  | .tyInt => "int"
  | .tyFloat => "float"
  | .tyBool => "bool"
  | .lit s => s
  | .other r => r

/-- `Database._normalize_config`. -/
def normalize_config (cfg : List (String × PyTypeVal)) : List (String × String) :=
  cfg.map (fun p => (p.1, normTag p.2))

/-- `Database.save_table_config`: normalize, serialize and upsert keyed by
`table_name` (`INSERT OR REPLACE`, modelled by `dictSet`). -/
def save_table_config (s : DBState) (n : String) (cfg : List (String × PyTypeVal)) :
    DBState :=
  { s with configs := dictSet s.configs n (normalize_config cfg) }

/-- `Database.get_table_config`: the deserialized stored document, or `none`
when no config was ever saved. -/
def get_table_config (s : DBState) (n : String) : Option (List (String × String)) :=
  alookup s.configs n

/-- `Database.delete_table_config`. -/
def delete_table_config (s : DBState) (n : String) : DBState :=
  { s with configs := s.configs.filter (fun p => p.1 ≠ n) }

/-- First column name in the list that repeats an earlier one (sqlite
rejects a `CREATE TABLE` whose column list has a repeated name with
`duplicate column name`). -/
def firstDup : List String → List String → Option String
  | _, [] => none
  | seen, c :: rest => if seen.contains c then some c else firstDup (c :: seen) rest

/-- `Database.create_table_from_config`: reject if the table exists; build
the column list as `id`, `created_at`, then one TEXT column per config entry
whose key is not `id` (only `id` is special-cased); the `CREATE TABLE`
fails on a duplicate column name, in which case nothing is created; on
success the raw config is normalized and saved. -/
def create_table_from_config (s : DBState) (n : String)
    (cfg : List (String × PyTypeVal)) : DBState × Option Err :=
  if table_exists s n then (s, some .alreadyExists)
  else
    let colDefs := (cfg.map Prod.fst).filter (fun c => c ≠ "id")
    let cols := ["id", "created_at"] ++ colDefs
    match firstDup [] cols with
    | some c => (s, some (.duplicateColumn c))
    | none =>
      let s1 := { s with tables := s.tables ++ [(n, ⟨cols, []⟩)] }
      (save_table_config s1 n cfg, none)

/-- The validation failure of `Database.validate_data_with_config`: the
`ValueError` message `Invalid type for column '<col>': expected <tag>`,
modelled structurally. -/
inductive ValErr where
  | invalid (col : String) (expected : String)
deriving DecidableEq

/-- Python `int(value)` for the modelled value domain.  `bool` is an `int`
subclass (`int(True) = 1`); a float truncates toward zero; a string goes
through the base-10 literal parser; `None` and lists raise (`TypeError`,
caught by the same `except` clause as `ValueError` in the caller, so the
error payload is not distinguished). -/
def pyIntCoerce : Value → Except Unit Int
  | .vStr s =>
    match parsePyIntString s with
    | some n => .ok n
    | none => .error ()
  | .vInt n => .ok n
  | .vFloat q => .ok (ratTrunc q)
  | .vBool b => .ok (if b then 1 else 0)
  | .vNone => .error ()
  | .vList _ => .error ()

/-- Python `float(value)` for the modelled value domain. -/
def pyFloatCoerce : Value → Except Unit Rat
  | .vStr s =>
    match parsePyFloatString s with
    | some q => .ok q
    | none => .error ()
  | .vInt n => .ok (n : Rat)
  | .vFloat q => .ok q
  | .vBool b => .ok (if b then 1 else 0)
  | .vNone => .error ()
  | .vList _ => .error ()

/-- The `bool` branch of validation: a string is true iff its lower-cased
form is `true`, `1` or `yes`; any other value goes through truthiness. -/
def pyBoolCoerce : Value → Bool
  | .vStr s =>
    let l := s.data.map asciiLower
    l = "true".data ∨ l = "1".data ∨ l = "yes".data
  | v => pyTruthy v

/-- The body of `validate_data_with_config`'s loop for one `(key, value)`
item, given the stored (string-tagged) config: `.ok none` means the key is
skipped (tags `auto`/`id`), `.ok (some w)` means `validated_data[key] = w`,
`.error` is the raised `ValueError`.  Keys absent from the config pass
through unchanged; an unknown tag stores `str(value)`. -/
def entryResult (cfg : List (String × String)) (k : String) (v : Value) :
    Except ValErr (Option Value) :=
  match alookup cfg k with
  | none => .ok (some v)
  | some t =>
    if t = "auto" ∨ t = "id" then .ok none
    else if t = "str" then .ok (some (.vStr (pyStr v)))
    else if t = "int" then
      match pyIntCoerce v with
      | .ok i => .ok (some (.vInt i))
      | .error _ => .error (.invalid k "int")
    else if t = "float" then
      match pyFloatCoerce v with
      | .ok q => .ok (some (.vFloat q))
      | .error _ => .error (.invalid k "float")
    else if t = "bool" then .ok (some (.vBool (pyBoolCoerce v)))
    else .ok (some (.vStr (pyStr v)))

/-- The loop of `validate_data_with_config` over `data.items()`, building
`validated_data` in insertion order. -/
def validateLoop (cfg : List (String × String)) (acc : Dict) : Dict →
    Except ValErr Dict
  | [] => .ok acc
  | (k, v) :: rest =>
    match entryResult cfg k v with
    | .error e => .error e
    | .ok none => validateLoop cfg acc rest
    | .ok (some w) => validateLoop cfg (dictSet acc k w) rest

/-- `Database.validate_data_with_config`: with no saved config — or a saved
empty one, since `if not config` is also taken by an empty dict — the data
is returned as-is; otherwise each item is validated/coerced in order. -/
def validate_data_with_config (s : DBState) (n : String) (data : Dict) :
    Except ValErr Dict :=
  match get_table_config s n with
  | none => .ok data
  | some cfg => if cfg.isEmpty then .ok data else validateLoop cfg [] data

/-- `Client.delete_table` (`src/skypydb/api/client.py`): the caller drops
the table and then, as its own separate responsibility, deletes the saved
config. -/
def client_delete_table (s : DBState) (n : String) : DBState × Option Err :=
  match delete_table s n with
  | (s1, none) => (delete_table_config s1 n, none)
  | (s1, some e) => (s1, some e)

/-- The stored config validation runs against: the saved document, or the
empty mapping when none was saved (derived helper for stating theorems). -/
def cfgFor (s : DBState) (n : String) : List (String × String) :=
  (get_table_config s n).getD []

/-- Derived characterization of a successful validation pass: each item is
kept, coerced, or dropped according to `entryResult`, in input order. -/
def coerceRowSpec (cfg : List (String × String)) (data : Dict) : Dict :=
  data.filterMap (fun p =>
    match entryResult cfg p.1 p.2 with
    | .ok (some w) => some (p.1, w)
    | _ => none)

/-- The numeric-coercion side condition of claim C4 for one `(key, value)`
item: if the key is declared Integer the value must parse as an integer,
and if declared Float it must parse as a floating-point number. -/
abbrev numericOk (cfg : List (String × String)) (k : String) (v : Value) : Prop :=
  (alookup cfg k = some "int" → (pyIntCoerce v).isOk = true) ∧
  (alookup cfg k = some "float" → (pyFloatCoerce v).isOk = true)

/-- Decidable equality of `Except` results (not provided by the library). -/
instance {e a : Type} [DecidableEq e] [DecidableEq a] : DecidableEq (Except e a) :=
  fun x y =>
    match x, y with
    | .ok a1, .ok a2 => decidable_of_iff (a1 = a2) (by simp)
    | .error e1, .error e2 => decidable_of_iff (e1 = e2) (by simp)
    | .ok _, .error _ => isFalse (fun h => by cases h)
    | .error _, .ok _ => isFalse (fun h => by cases h)

/-- A one-row table used by concrete counterexamples: column `a` holds the
text `"x"` (the state produced by `create_table` followed by one insert). -/
def demoRow : StoredRow := [("id", some "u1"), ("created_at", some "n1"), ("a", some "x")]

/-- Second demo row, with a different `id` and `a = "y"`. -/
def demoRow2 : StoredRow := [("id", some "u2"), ("created_at", some "n2"), ("a", some "y")]

/-- Demo state with one table `t` holding `demoRow`. -/
def demoState1 : DBState :=
  ⟨[("t", ⟨["id", "created_at", "a"], [demoRow]⟩)], []⟩

/-- Demo state with one table `t` holding `demoRow` and `demoRow2`. -/
def demoState2 : DBState :=
  ⟨[("t", ⟨["id", "created_at", "a"], [demoRow, demoRow2]⟩)], []⟩

/-- Demo state whose saved config for table `t` declares `created_at` as
Integer (as saved by `save_table_config("t", {"created_at": int})`). -/
def demoStateCfgCreatedAt : DBState :=
  ⟨[], [("t", [("created_at", "int")])]⟩

/-- Demo state whose saved config for table `users` is
`{"name": "str", "age": "int"}` (the spec's worked example). -/
def demoStateUsers : DBState :=
  ⟨[], [("users", [("name", "str"), ("age", "int")])]⟩

theorem alookup_cons {α : Type} (k2 : String) (v : α) (rest : List (String × α))
    (k : String) :
    alookup ((k2, v) :: rest) k = if k2 = k then some v else alookup rest k := rfl

theorem alookup_append {α : Type} (a b : List (String × α)) (k : String) :
    alookup (a ++ b) k = (alookup a k).or (alookup b k) := by
  induction a with
  | nil => simp [alookup]
  | cons p rest ih =>
    obtain ⟨k2, v⟩ := p
    by_cases h : k2 = k
    · subst h
      simp [alookup_cons]
    · simp [alookup_cons, h, ih]

theorem alookup_map_set {α : Type} (d : List (String × α)) (k : String) (v : α) :
    alookup (d.map (fun p => if p.1 = k then (k, v) else p)) k =
      if d.any (fun p => p.1 = k) then some v else none := by
  induction d with
  | nil => simp [alookup]
  | cons p rest ih =>
    obtain ⟨k2, w⟩ := p
    by_cases h : k2 = k
    · subst h
      simp [alookup_cons]
    · simp only [List.map_cons]
      rw [if_neg (show ¬((k2, w).1 = k) from h)]
      simp only [alookup_cons, if_neg h, ih, List.any_cons]
      by_cases hr : (rest.any fun p => decide (p.1 = k)) = true
      · rw [if_pos hr, if_pos (by simp_all)]
      · rw [if_neg hr, if_neg (by simp_all)]

theorem alookup_map_set_ne {α : Type} (d : List (String × α)) (k k2 : String)
    (v : α) (h : k2 ≠ k) :
    alookup (d.map (fun p => if p.1 = k then (k, v) else p)) k2 = alookup d k2 := by
  induction d with
  | nil => simp
  | cons p rest ih =>
    obtain ⟨k3, w⟩ := p
    simp only [List.map_cons]
    by_cases h3 : k3 = k
    · subst h3
      rw [if_pos (show (k3, w).1 = k3 from rfl)]
      simp [alookup_cons, Ne.symm h, ih]
    · rw [if_neg (show ¬((k3, w).1 = k) from h3)]
      by_cases h2 : k3 = k2 <;> simp [alookup_cons, h2, ih]

theorem dictSet_alookup_self {α : Type} (d : List (String × α)) (k : String) (v : α) :
    alookup (dictSet d k v) k = some v := by
  unfold dictSet
  by_cases h : d.any (fun p => p.1 = k)
  · simp [h, alookup_map_set]
  · rw [if_neg (by simp_all)]
    rw [alookup_append]
    have hnone : alookup d k = none := by
      induction d with
      | nil => simp [alookup]
      | cons p rest ih =>
        simp only [List.any_cons, Bool.or_eq_true, decide_eq_true_eq] at h
        push_neg at h
        obtain ⟨k2, w⟩ := p
        rw [alookup_cons, if_neg h.1]
        exact ih (by simpa using h.2)
    simp [hnone, alookup]

theorem dictSet_alookup_ne {α : Type} (d : List (String × α)) (k k2 : String)
    (v : α) (h : k2 ≠ k) :
    alookup (dictSet d k v) k2 = alookup d k2 := by
  unfold dictSet
  by_cases hc : d.any (fun p => p.1 = k)
  · simp [hc, alookup_map_set_ne _ _ _ _ h]
  · rw [if_neg (by simp_all)]
    rw [alookup_append]
    cases hk2 : alookup d k2 with
    | some w => simp
    | none => simp [alookup_cons, alookup, Ne.symm h]

theorem dictSet_eq_append {α : Type} (d : List (String × α)) (k : String) (v : α)
    (h : d.any (fun p => p.1 = k) = false) :
    dictSet d k v = d ++ [(k, v)] := by
  simp [dictSet, h]

theorem alookup_map_fn {α : Type} (cols : List String) (f : String → α) (k : String) :
    alookup (cols.map (fun c => (c, f c))) k =
      if cols.contains k then some (f k) else none := by
  induction cols with
  | nil => simp [alookup]
  | cons c rest ih =>
    by_cases h : c = k
    · subst h
      simp [alookup_cons]
    · simp [alookup_cons, h, ih, Ne.symm h]

theorem setTable_configs (s : DBState) (n : String) (t : Table) :
    (setTable s n t).configs = s.configs := rfl

theorem alookup_any {α : Type} (l : List (String × α)) (k : String) :
    (alookup l k).isSome = l.any (fun p => p.1 = k) := by
  induction l with
  | nil => simp [alookup]
  | cons p rest ih =>
    obtain ⟨k2, w⟩ := p
    by_cases h : k2 = k
    · subst h
      simp [alookup_cons]
    · simp [alookup_cons, h, ih]

theorem setTable_alookup (s : DBState) (n : String) (t tN : Table)
    (h : alookup s.tables n = some t) :
    alookup (setTable s n tN).tables n = some tN := by
  have hany : s.tables.any (fun p => p.1 = n) = true := by
    rw [← alookup_any, h]
    rfl
  show alookup (s.tables.map (fun p => if p.1 = n then (n, tN) else p)) n = some tN
  rw [alookup_map_set, if_pos hany]

theorem add_columns_spec (ex : List String) (cols : List String) (t : Table) :
    cols.foldl (addColStep ex) t =
      ⟨t.columns ++ newCols ex cols,
       t.rows.map (fun r => r ++ (newCols ex cols).map (fun c => (c, none)))⟩ := by
  induction cols generalizing t with
  | nil =>
    obtain ⟨cs, rs⟩ := t
    simp [newCols]
  | cons c rest ih =>
    simp only [List.foldl_cons]
    by_cases h : ex.contains c = true ∨ c = "id" ∨ c = "created_at"
    · rw [show addColStep ex t c = t by rw [addColStep, if_pos (by simpa using h)]]
      rw [ih t]
      rw [newCols, if_pos (by simpa using h)]
    · rw [show addColStep ex t c =
        ⟨t.columns ++ [c], t.rows.map (fun r => r ++ [(c, none)])⟩ by
          rw [addColStep, if_neg (by simpa using h)]]
      rw [ih]
      rw [newCols, if_neg (by simpa using h)]
      refine congrArg₂ Table.mk ?_ ?_
      · simp
      · simp [List.map_map, Function.comp_def, List.append_assoc]

theorem filterConds_emptyList (f1 f2 : List (String × Value)) (k : String) :
    filterConds (f1 ++ (k, Value.vList .nil) :: f2) =
    filterConds (f1 ++ (k, Value.vStr "[]") :: f2) := by
  induction f1 with
  | nil =>
    simp only [List.nil_append]
    by_cases h : k = "id" ∨ k = "created_at"
    · simp [filterConds, h]
    · simp [filterConds, h]
      rfl
  | cons p rest ih =>
    obtain ⟨c, v⟩ := p
    by_cases h : c = "id" ∨ c = "created_at"
    · simp [filterConds, h, ih]
    · cases v with
      | vList l =>
        cases l with
        | nil => simp [filterConds, h, ih]
        | cons x xs => simp [filterConds, h, ih]
      | vStr s => simp [filterConds, h, ih]
      | vInt n => simp [filterConds, h, ih]
      | vFloat q => simp [filterConds, h, ih]
      | vBool b => simp [filterConds, h, ih]
      | vNone => simp [filterConds, h, ih]

/-- Claim C1 (corrected), counterexample: on a table whose column `a` holds
the text `"x"`, a filter mapping `a` to the empty list is NOT skipped — the
empty list fails the `len(value) > 0` test and falls into the scalar branch,
producing the conjunct `a = str([]) = "[]"`, which matches no row — while
dropping the entry returns the row.  The two searches therefore differ. -/
theorem c1_counterexample :
    search demoState1 "t" none [("a", Value.vList .nil)] = .ok [] ∧
    search demoState1 "t" none [] = .ok [demoRow] ∧
    search demoState1 "t" none [("a", Value.vList .nil)] ≠
      search demoState1 "t" none [] :=
  ⟨rfl, rfl, by decide⟩

/-- Claim C1 (corrected), amended claim: a search filter entry whose value
is the empty list is not skipped; it contributes an equality conjunct
comparing the column to `str([]) = "[]"` — that is, `search` treats a key
mapped to the empty list exactly as if it were mapped to the scalar string
`"[]"`. -/
theorem c1_amended (s : DBState) (n : String) (index : Option String)
    (f1 f2 : List (String × Value)) (k : String) :
    search s n index (f1 ++ (k, Value.vList .nil) :: f2) =
    search s n index (f1 ++ (k, Value.vStr "[]") :: f2) := by
  cases h : alookup s.tables n with
  | none => simp [search, h]
  | some t => simp [search, h, filterConds_emptyList]

/-- Claim C2 (corrected), counterexample: `delete_data` does not exclude the
reserved keys from its WHERE clause, while `search` does.  With the filter
`{id: "u1"}` on a two-row table, delete removes exactly the row with
`id = "u1"` (count 1, the other row remains), while search skips the `id`
entry and returns both rows — so the rows removed are not the rows
searched. -/
theorem c2_counterexample :
    delete_data demoState2 "t" [("id", Value.vStr "u1")] =
      (⟨[("t", ⟨["id", "created_at", "a"], [demoRow2]⟩)], []⟩, .ok 1) ∧
    search demoState2 "t" none [("id", Value.vStr "u1")] = .ok [demoRow, demoRow2] ∧
    ([demoRow] : List StoredRow) ≠ [demoRow, demoRow2] :=
  ⟨by decide, by decide, by decide⟩

/-- Claim C3 (corrected), counterexample: `validate_data_with_config` has no
special case for the KEYS `id`/`created_at` — only for the TAGS `"id"` and
`"auto"`.  With a saved config declaring `created_at` as Integer, the value
of the reserved column `created_at` IS coerced: `"30"` becomes the integer
`30`, not the unchanged input value. -/
theorem c3_counterexample :
    validate_data_with_config demoStateCfgCreatedAt "t" [("created_at", .vStr "30")] =
      .ok [("created_at", .vInt 30)] ∧
    Value.vInt 30 ≠ Value.vStr "30" :=
  ⟨rfl, by intro h; cases h⟩

/-- Claim C6 (confirmed): saving a config and reading it back returns
exactly the normalization of the input — native type markers map to their
canonical tags and anything else is stored as its literal string form; the
(modelled) serialization round trip preserves the mapping exactly. -/
theorem c6_config_roundtrip (s : DBState) (n : String)
    (cfg : List (String × PyTypeVal)) :
    get_table_config (save_table_config s n cfg) n = some (normalize_config cfg) := by
  unfold get_table_config save_table_config
  exact dictSet_alookup_self _ _ _

/-- Claim C7 (confirmed): `Database.delete_table` on an existing table drops
the physical table and leaves the saved `_skypy_config` rows untouched, so
`get_table_config` answers exactly as before; cascading the config removal
is the caller's separate call (see `client_delete_table`). -/
theorem c7_delete_table_keeps_config (s : DBState) (n : String)
    (h : table_exists s n = true) :
    (delete_table s n).1.configs = s.configs ∧
    get_table_config (delete_table s n).1 n = get_table_config s n := by
  unfold delete_table
  rw [if_pos h]
  exact ⟨rfl, rfl⟩

/-- Witness for C7 at a concrete state. -/
theorem c7_delete_table_keeps_config_witness :
    table_exists demoState1 "t" = true ∧
    ((delete_table demoState1 "t").1.configs = demoState1.configs ∧
     get_table_config (delete_table demoState1 "t").1 "t" =
       get_table_config demoState1 "t") :=
  ⟨by decide, c7_delete_table_keeps_config demoState1 "t" (by decide)⟩

theorem firstDup_hits (l : List String) (seen : List String)
    (hN : l.Nodup) (hmem : "created_at" ∈ l) (hseen : "created_at" ∈ seen)
    (hdisj : ∀ c ∈ l, c ≠ "created_at" → c ∉ seen) :
    firstDup seen l = some "created_at" := by
  induction l generalizing seen with
  | nil => cases hmem
  | cons c rest ih =>
    by_cases hc : c = "created_at"
    · subst hc
      rw [firstDup, if_pos (List.elem_eq_true_of_mem hseen)]
    · rw [firstDup, if_neg (fun hcon =>
        hdisj c (List.mem_cons_self c rest) hc (List.mem_of_elem_eq_true hcon))]
      refine ih (c :: seen) hN.of_cons ?_ (List.mem_cons_of_mem _ hseen) ?_
      · rcases List.mem_cons.mp hmem with h | h
        · exact absurd h.symm hc
        · exact h
      · intro c2 hc2 hcc2
        rw [List.mem_cons]
        push_neg
        constructor
        · intro heq
          exact (List.nodup_cons.mp hN).1 (heq ▸ hc2)
        · exact hdisj c2 (List.mem_cons_of_mem _ hc2) hcc2

/-- Claim C9 (confirmed): for a table that does not yet exist, a config that
contains the key `created_at` makes `create_table_from_config` fail with
sqlite's duplicate-column error and create nothing: only the `id` key is
exempted from eager column generation, so the config's `created_at` column
collides with the built-in one; the returned state is the input state, so
neither the physical table nor the saved config exists afterwards. -/
theorem c9_create_from_config_created_at (s : DBState) (n : String)
    (cfg : List (String × PyTypeVal))
    (hex : table_exists s n = false)
    (hN : (cfg.map Prod.fst).Nodup)
    (hmem : "created_at" ∈ cfg.map Prod.fst) :
    create_table_from_config s n cfg = (s, some (.duplicateColumn "created_at")) := by
  unfold create_table_from_config
  rw [if_neg (by simp [hex])]
  have hstep : firstDup []
      ("id" :: "created_at" :: (cfg.map Prod.fst).filter (fun c => c ≠ "id")) =
      firstDup ["created_at", "id"] ((cfg.map Prod.fst).filter (fun c => c ≠ "id")) := by
    rw [firstDup, if_neg (by decide), firstDup, if_neg (by decide)]
  have hdup : firstDup ["created_at", "id"]
      ((cfg.map Prod.fst).filter (fun c => c ≠ "id")) = some "created_at" := by
    refine firstDup_hits _ _ (hN.filter _) ?_ (by simp) ?_
    · exact List.mem_filter.mpr ⟨hmem, by decide⟩
    · intro c hc hcc
      have hcid : c ≠ "id" := by
        have := (List.mem_filter.mp hc).2
        simpa using this
      simp [hcc, hcid]
  simp only [List.append_eq]
  rw [show ["id", "created_at"] ++ (cfg.map Prod.fst).filter (fun c => c ≠ "id") =
      "id" :: "created_at" :: (cfg.map Prod.fst).filter (fun c => c ≠ "id") from rfl]
  rw [hstep, hdup]

/-- Witness for C9: config `{"created_at": "str", "x": int}` against an
absent table `t2`. -/
theorem c9_create_from_config_created_at_witness :
    table_exists demoState1 "t2" = false ∧
    (([("created_at", PyTypeVal.lit "str"), ("x", PyTypeVal.tyInt)].map
        Prod.fst).Nodup) ∧
    ("created_at" ∈ [("created_at", PyTypeVal.lit "str"),
        ("x", PyTypeVal.tyInt)].map Prod.fst) ∧
    create_table_from_config demoState1 "t2"
        [("created_at", PyTypeVal.lit "str"), ("x", PyTypeVal.tyInt)] =
      (demoState1, some (.duplicateColumn "created_at")) :=
  ⟨by decide, by decide, by decide,
   c9_create_from_config_created_at demoState1 "t2" _ (by decide) (by decide)
     (by decide)⟩

theorem insertD1_alookup_ne (data : Dict) (g : Bool) (uuid : String) (k : String)
    (h : k ≠ "id") : alookup (insertD1 data g uuid) k = alookup data k := by
  unfold insertD1
  cases g with
  | false => rfl
  | true => exact dictSet_alookup_ne _ _ _ _ h

theorem insertDict_alookup_id_gen (data : Dict) (uuid now : String) :
    alookup (insertDict data true uuid now) "id" = some (.vStr uuid) := by
  unfold insertDict insertD2
  by_cases h : (alookup (insertD1 data true uuid) "created_at").isSome
  · rw [if_pos h]
    unfold insertD1
    simp only [if_pos rfl]
    exact dictSet_alookup_self _ _ _
  · rw [if_neg h, dictSet_alookup_ne _ _ _ _ (by decide)]
    unfold insertD1
    simp only [if_pos rfl]
    exact dictSet_alookup_self _ _ _

theorem insertDict_alookup_id_nogen (data : Dict) (uuid now : String)
    (hid : alookup data "id" = none) :
    alookup (insertDict data false uuid now) "id" = none := by
  unfold insertDict insertD2
  by_cases h : (alookup (insertD1 data false uuid) "created_at").isSome
  · rw [if_pos h]
    exact hid
  · rw [if_neg h, dictSet_alookup_ne _ _ _ _ (by decide)]
    exact hid

theorem insertDict_alookup_created (data : Dict) (g : Bool) (uuid now : String) :
    alookup (insertDict data g uuid now) "created_at" =
      some ((alookup data "created_at").getD (.vStr now)) := by
  unfold insertDict insertD2
  rw [insertD1_alookup_ne data g uuid "created_at" (by decide)]
  cases h : alookup data "created_at" with
  | some v =>
    rw [if_pos (show (some v).isSome = true from rfl)]
    rw [insertD1_alookup_ne data g uuid "created_at" (by decide), h]
    rfl
  | none =>
    rw [if_neg (by simp)]
    rw [dictSet_alookup_self]
    rfl

theorem not_mem_newCols_reserved (ex cols : List String) (k : String)
    (hk : k = "id" ∨ k = "created_at") : k ∉ newCols ex cols := by
  induction cols with
  | nil => simp [newCols]
  | cons c rest ih =>
    rw [newCols]
    by_cases h : ex.contains c = true ∨ c = "id" ∨ c = "created_at"
    · rw [if_pos (by simpa using h)]
      exact ih
    · rw [if_neg (by simpa using h)]
      intro hmem
      rcases List.mem_cons.mp hmem with rfl | hmem2
      · rcases hk with rfl | rfl <;> simp_all
      · exact ih hmem2

theorem alookup_pads_reserved (ex cols : List String) (k : String)
    (hk : k = "id" ∨ k = "created_at") :
    alookup ((newCols ex cols).map (fun c => (c, (none : Option String)))) k = none := by
  rw [alookup_map_fn]
  rw [if_neg (fun hcon =>
    not_mem_newCols_reserved ex cols k hk (List.mem_of_elem_eq_true hcon))]

theorem insertT1_parts (t0 : Table) (d2 : Dict) :
    insertT1 t0 d2 =
      ⟨t0.columns ++
         newCols t0.columns ((dictKeys d2).filter (fun c => c ≠ "id" ∧ c ≠ "created_at")),
       t0.rows.map (fun r => r ++
         (newCols t0.columns
           ((dictKeys d2).filter (fun c => c ≠ "id" ∧ c ≠ "created_at"))).map
             (fun c => (c, none)))⟩ := by
  unfold insertT1 add_columns_if_needed
  exact add_columns_spec _ _ _

theorem insertT1_row_alookup_reserved (t0 : Table) (d2 : Dict) (k : String)
    (hk : k = "id" ∨ k = "created_at") (r : StoredRow)
    (hr : r ∈ (insertT1 t0 d2).rows) :
    ∃ r0 ∈ t0.rows, alookup r k = alookup r0 k := by
  rw [insertT1_parts] at hr
  simp only [List.mem_map] at hr
  obtain ⟨r0, hr0, rfl⟩ := hr
  refine ⟨r0, hr0, ?_⟩
  rw [alookup_append, alookup_pads_reserved _ _ _ hk]
  cases alookup r0 k <;> rfl

theorem insert_data_eq_of_some (s : DBState) (n : String) (data : Dict)
    (g : Bool) (uuid now : String) (t : Table) (ht : alookup s.tables n = some t) :
    insert_data s n data g uuid now =
      (if pkConflict (insertT1 t (insertDict data g uuid now))
            (insertRow (insertT1 t (insertDict data g uuid now)).columns
              (insertDict data g uuid now)) = true then
        (setTable s n (insertT1 t (insertDict data g uuid now)),
         insertDict data g uuid now, .integrityError)
      else
        match alookup (insertDict data g uuid now) "id" with
        | some v =>
          (setTable (setTable s n (insertT1 t (insertDict data g uuid now))) n
             { insertT1 t (insertDict data g uuid now) with
               rows := (insertT1 t (insertDict data g uuid now)).rows ++
                 [insertRow (insertT1 t (insertDict data g uuid now)).columns
                   (insertDict data g uuid now)] },
           insertDict data g uuid now, .ok v)
        | none =>
          (setTable (setTable s n (insertT1 t (insertDict data g uuid now))) n
             { insertT1 t (insertDict data g uuid now) with
               rows := (insertT1 t (insertDict data g uuid now)).rows ++
                 [insertRow (insertT1 t (insertDict data g uuid now)).columns
                   (insertDict data g uuid now)] },
           insertDict data g uuid now, .keyErrorId)) := by
  unfold insert_data
  rw [ht]

/-- Claim C5 (confirmed): inserting with `generate_id` into an existing
table stores exactly one new row whose `id` cell is the freshly generated
UUID string (overwriting any caller-supplied `id`, since the assignment
`data["id"] = str(uuid.uuid4())` happens unconditionally), whose
`created_at` cell is the stringified caller value when one was supplied and
the current ISO timestamp otherwise, and returns that same identifier
(`.ok (.vStr uuid)` — the stored TEXT cell `some uuid` renders the same
string).  Freshness of the random 128-bit UUID is the oracle hypothesis
`hfresh`. -/
theorem c5_insert_assigns_and_returns_id
    (s : DBState) (n : String) (data : Dict) (uuid now : String) (t : Table)
    (ht : alookup s.tables n = some t)
    (hcid : t.columns.contains "id" = true)
    (hcca : t.columns.contains "created_at" = true)
    (hfresh : ∀ r ∈ t.rows, alookup r "id" ≠ some (some uuid)) :
    ∃ tN : Table,
      alookup (insert_data s n data true uuid now).1.tables n = some tN ∧
      (insert_data s n data true uuid now).2.2 = InsertOutcome.ok (.vStr uuid) ∧
      tN.rows.length = t.rows.length + 1 ∧
      ∃ r, tN.rows.getLast? = some r ∧
        alookup r "id" = some (some uuid) ∧
        alookup r "created_at" =
          some (some (pyStr ((alookup data "created_at").getD (.vStr now)))) := by
  have hid2 := insertDict_alookup_id_gen data uuid now
  have hca2 := insertDict_alookup_created data true uuid now
  have ht1 := insertT1_parts t (insertDict data true uuid now)
  have hc1id : (insertT1 t (insertDict data true uuid now)).columns.contains "id" = true := by
    rw [ht1]
    exact List.elem_eq_true_of_mem
      (List.mem_append_left _ (List.mem_of_elem_eq_true hcid))
  have hc1ca : (insertT1 t (insertDict data true uuid now)).columns.contains
      "created_at" = true := by
    rw [ht1]
    exact List.elem_eq_true_of_mem
      (List.mem_append_left _ (List.mem_of_elem_eq_true hcca))
  have hrowid : alookup (insertRow (insertT1 t (insertDict data true uuid now)).columns
      (insertDict data true uuid now)) "id" = some (some uuid) := by
    unfold insertRow
    rw [alookup_map_fn, if_pos hc1id, hid2]
    rfl
  have hrowca : alookup (insertRow (insertT1 t (insertDict data true uuid now)).columns
      (insertDict data true uuid now)) "created_at" =
      some (some (pyStr ((alookup data "created_at").getD (.vStr now)))) := by
    unfold insertRow
    rw [alookup_map_fn, if_pos hc1ca, hca2]
    rfl
  have hpk : pkConflict (insertT1 t (insertDict data true uuid now))
      (insertRow (insertT1 t (insertDict data true uuid now)).columns
        (insertDict data true uuid now)) = false := by
    unfold pkConflict
    rw [hrowid]
    rw [List.any_eq_false]
    intro r hr
    obtain ⟨r0, hr0, heq⟩ :=
      insertT1_row_alookup_reserved t (insertDict data true uuid now) "id"
        (Or.inl rfl) r hr
    simp only [decide_eq_true_eq, heq]
    exact hfresh r0 hr0
  rw [insert_data_eq_of_some s n data true uuid now t ht,
    if_neg (by rw [hpk]; exact Bool.false_ne_true), hid2]
  refine ⟨_, setTable_alookup _ _ _ _ (setTable_alookup _ _ _ _ ht), rfl, ?_, _,
    List.getLast?_concat _, hrowid, hrowca⟩
  simp only [List.length_append]
  rw [ht1]
  simp

/-- Witness for C5: a fresh UUID `u9` inserted into the one-row demo
state. -/
theorem c5_insert_assigns_and_returns_id_witness :
    (∀ r ∈ (Table.mk ["id", "created_at", "a"] [demoRow]).rows,
      alookup r "id" ≠ some (some "u9")) ∧
    ∃ tN : Table,
      alookup (insert_data demoState1 "t" [("a", Value.vStr "q")] true "u9" "n9").1.tables
        "t" = some tN ∧
      (insert_data demoState1 "t" [("a", Value.vStr "q")] true "u9" "n9").2.2 =
        InsertOutcome.ok (.vStr "u9") ∧
      tN.rows.length = (Table.mk ["id", "created_at", "a"] [demoRow]).rows.length + 1 ∧
      ∃ r, tN.rows.getLast? = some r ∧
        alookup r "id" = some (some "u9") ∧
        alookup r "created_at" =
          some (some (pyStr ((alookup [("a", Value.vStr "q")] "created_at").getD
            (.vStr "n9")))) :=
  ⟨by decide,
   c5_insert_assigns_and_returns_id demoState1 "t" [("a", Value.vStr "q")] "u9" "n9"
     (Table.mk ["id", "created_at", "a"] [demoRow]) (by decide) (by decide) (by decide)
     (by decide)⟩

/-- Claim C8 (confirmed): `insert_data` with `generate_id = False` on a
dictionary lacking `id` commits the row first (the `id TEXT PRIMARY KEY`
column tolerates NULL in SQLite) and only then raises `KeyError` from
`return data["id"]` — the failure is not atomic, the table has one more row
despite the raised error. -/
theorem c8_insert_without_id_commits_then_raises
    (s : DBState) (n : String) (data : Dict) (uuid now : String) (t : Table)
    (ht : alookup s.tables n = some t)
    (hid : alookup data "id" = none) :
    ∃ tN : Table,
      alookup (insert_data s n data false uuid now).1.tables n = some tN ∧
      tN.rows.length = t.rows.length + 1 ∧
      (insert_data s n data false uuid now).2.2 = InsertOutcome.keyErrorId := by
  have hid2 := insertDict_alookup_id_nogen data uuid now hid
  have hpk : pkConflict (insertT1 t (insertDict data false uuid now))
      (insertRow (insertT1 t (insertDict data false uuid now)).columns
        (insertDict data false uuid now)) = false := by
    unfold pkConflict insertRow
    rw [alookup_map_fn]
    by_cases hcc : (insertT1 t (insertDict data false uuid now)).columns.contains
        "id" = true
    · rw [if_pos hcc, hid2]
      rfl
    · rw [if_neg hcc]
  rw [insert_data_eq_of_some s n data false uuid now t ht,
    if_neg (by rw [hpk]; exact Bool.false_ne_true), hid2]
  refine ⟨_, setTable_alookup _ _ _ _ (setTable_alookup _ _ _ _ ht), ?_, rfl⟩
  simp only [List.length_append]
  rw [insertT1_parts]
  simp

/-- Witness for C8 at the one-row demo state. -/
theorem c8_insert_without_id_commits_then_raises_witness :
    alookup [("a", Value.vStr "q")] "id" = none ∧
    ∃ tN : Table,
      alookup (insert_data demoState1 "t" [("a", Value.vStr "q")] false "ux" "n9").1.tables
        "t" = some tN ∧
      tN.rows.length = (Table.mk ["id", "created_at", "a"] [demoRow]).rows.length + 1 ∧
      (insert_data demoState1 "t" [("a", Value.vStr "q")] false "ux" "n9").2.2 =
        InsertOutcome.keyErrorId :=
  ⟨rfl,
   c8_insert_without_id_commits_then_raises demoState1 "t" [("a", Value.vStr "q")]
     "ux" "n9" (Table.mk ["id", "created_at", "a"] [demoRow]) (by decide) rfl⟩

/-- Claim C10 (confirmed): `insert_data` mutates the caller's dictionary in
place (no copy is taken); the model returns that mutated dictionary, and
after a call with `generate_id` it contains the generated identifier under
`id` and — exactly when `created_at` was absent before the call — a new
`created_at` timestamp entry (a pre-existing entry is left untouched). -/
theorem c10_insert_mutates_caller_dict
    (s : DBState) (n : String) (data : Dict) (uuid now : String) (t : Table)
    (ht : alookup s.tables n = some t) :
    alookup (insert_data s n data true uuid now).2.1 "id" = some (.vStr uuid) ∧
    (alookup data "created_at" = none →
      alookup (insert_data s n data true uuid now).2.1 "created_at" =
        some (.vStr now)) ∧
    (∀ v, alookup data "created_at" = some v →
      alookup (insert_data s n data true uuid now).2.1 "created_at" = some v) := by
  have hd : (insert_data s n data true uuid now).2.1 = insertDict data true uuid now := by
    rw [insert_data_eq_of_some s n data true uuid now t ht]
    by_cases hpk : pkConflict (insertT1 t (insertDict data true uuid now))
        (insertRow (insertT1 t (insertDict data true uuid now)).columns
          (insertDict data true uuid now)) = true
    · rw [if_pos hpk]
    · rw [if_neg hpk]
      cases h2 : alookup (insertDict data true uuid now) "id" with
      | some v => rfl
      | none => rfl
  rw [hd]
  refine ⟨insertDict_alookup_id_gen data uuid now, ?_, ?_⟩
  · intro h
    rw [insertDict_alookup_created, h]
    rfl
  · intro v h
    rw [insertDict_alookup_created, h]
    rfl

/-- Witness for C10: after the call, the caller's own dictionary holds the
generated `id` and a fresh `created_at`. -/
theorem c10_insert_mutates_caller_dict_witness :
    alookup (insert_data demoState1 "t" [("a", Value.vStr "q")] true "u9" "n9").2.1
      "id" = some (.vStr "u9") ∧
    alookup [("a", Value.vStr "q")] "created_at" = none ∧
    alookup (insert_data demoState1 "t" [("a", Value.vStr "q")] true "u9" "n9").2.1
      "created_at" = some (.vStr "n9") :=
  ⟨(c10_insert_mutates_caller_dict demoState1 "t" [("a", Value.vStr "q")] "u9" "n9"
      (Table.mk ["id", "created_at", "a"] [demoRow]) (by decide)).1,
   rfl,
   (c10_insert_mutates_caller_dict demoState1 "t" [("a", Value.vStr "q")] "u9" "n9"
      (Table.mk ["id", "created_at", "a"] [demoRow]) (by decide)).2.1 rfl⟩

theorem deleteConds_eq_filterConds (filters : List (String × Value))
    (h : ∀ p ∈ filters, p.1 ≠ "id" ∧ p.1 ≠ "created_at") :
    filterConds filters = deleteConds filters := by
  induction filters with
  | nil => rfl
  | cons p rest ih =>
    obtain ⟨c, v⟩ := p
    have hc := h (c, v) (List.mem_cons_self _ _)
    have hrest : ∀ p ∈ rest, p.1 ≠ "id" ∧ p.1 ≠ "created_at" :=
      fun p hp => h p (List.mem_cons_of_mem _ hp)
    have hcc : ¬ (c = "id" ∨ c = "created_at") := by
      push_neg
      exact hc
    cases v with
    | vList l =>
      cases l with
      | nil => simp [filterConds, deleteConds, hcc, ih hrest]
      | cons x xs => simp [filterConds, deleteConds, hcc, ih hrest]
    | vStr a => simp [filterConds, deleteConds, hcc, ih hrest]
    | vInt a => simp [filterConds, deleteConds, hcc, ih hrest]
    | vFloat a => simp [filterConds, deleteConds, hcc, ih hrest]
    | vBool a => simp [filterConds, deleteConds, hcc, ih hrest]
    | vNone => simp [filterConds, deleteConds, hcc, ih hrest]

/-- Claim C2 (corrected), amended claim: `delete_data` builds its WHERE
clause with the same scalar-equality / non-empty-list-IN / AND semantics as
`search`'s filter conjuncts but excludes nothing — no key is skipped.  For
every non-empty filter map that mentions neither `id` nor `created_at` and
references only existing columns, the two predicates coincide: `search`
(with no index) returns exactly the matching rows, and `delete_data`
removes exactly those rows and reports their number. -/
theorem c2_amended (s : DBState) (n : String) (filters : List (String × Value))
    (t : Table)
    (hne : filters ≠ [])
    (hres : ∀ p ∈ filters, p.1 ≠ "id" ∧ p.1 ≠ "created_at")
    (ht : alookup s.tables n = some t)
    (hcols : findMissingCol t.columns (deleteConds filters) = none) :
    search s n none filters =
      .ok (t.rows.filter (rowMatchesAll (deleteConds filters))) ∧
    delete_data s n filters =
      (setTable s n
        { t with rows := t.rows.filter (fun r => !rowMatchesAll (deleteConds filters) r) },
       .ok ((t.rows.filter (rowMatchesAll (deleteConds filters))).length)) := by
  have hconds := deleteConds_eq_filterConds filters hres
  have hemp : filters.isEmpty = false := by
    cases filters with
    | nil => exact absurd rfl hne
    | cons p rest => rfl
  constructor
  · unfold search
    rw [ht]
    show (match findMissingCol t.columns (indexConds t none ++ filterConds filters) with
      | some c => Except.error (Err.noSuchColumn c)
      | none => Except.ok (t.rows.filter (rowMatchesAll
          (indexConds t none ++ filterConds filters)))) = _
    rw [show indexConds t none = [] from rfl, List.nil_append, hconds, hcols]
  · unfold delete_data
    rw [ht]
    show (if filters.isEmpty = true then (s, Except.error Err.valueErrorNoFilters)
      else match findMissingCol t.columns (deleteConds filters) with
        | some c => (s, Except.error (Err.noSuchColumn c))
        | none =>
          (setTable s n
            { t with rows := t.rows.filter (fun r => !rowMatchesAll (deleteConds filters) r) },
           Except.ok (t.rows.countP (fun r => rowMatchesAll (deleteConds filters) r)))) = _
    rw [if_neg (by rw [hemp]; exact Bool.false_ne_true), hcols,
      List.countP_eq_length_filter]

/-- Witness for the amended C2 on the two-row demo state with the filter
`{a: "x"}`. -/
theorem c2_amended_witness :
    ([(("a" : String), Value.vStr "x")] ≠ ([] : List (String × Value))) ∧
    (∀ p ∈ [(("a" : String), Value.vStr "x")], p.1 ≠ "id" ∧ p.1 ≠ "created_at") ∧
    (search demoState2 "t" none [("a", Value.vStr "x")] =
      .ok ((Table.mk ["id", "created_at", "a"] [demoRow, demoRow2]).rows.filter
        (rowMatchesAll (deleteConds [("a", Value.vStr "x")]))) ∧
    delete_data demoState2 "t" [("a", Value.vStr "x")] =
      (setTable demoState2 "t"
        { Table.mk ["id", "created_at", "a"] [demoRow, demoRow2] with
          rows := (Table.mk ["id", "created_at", "a"] [demoRow, demoRow2]).rows.filter
            (fun r => !rowMatchesAll (deleteConds [("a", Value.vStr "x")]) r) },
       .ok (((Table.mk ["id", "created_at", "a"] [demoRow, demoRow2]).rows.filter
         (rowMatchesAll (deleteConds [("a", Value.vStr "x")]))).length))) :=
  ⟨List.cons_ne_nil _ _, by decide,
   c2_amended demoState2 "t" [("a", Value.vStr "x")]
     (Table.mk ["id", "created_at", "a"] [demoRow, demoRow2])
     (List.cons_ne_nil _ _) (by decide) (by decide) (by decide)⟩

theorem validateLoop_pres (cfg : List (String × String)) (data : Dict) :
    ∀ (acc out : Dict) (k : String), ¬ k ∈ dictKeys data →
      validateLoop cfg acc data = .ok out → alookup out k = alookup acc k := by
  induction data with
  | nil =>
    intro acc out k _ h
    rw [validateLoop] at h
    injection h with h2
    rw [h2]
  | cons p rest ih =>
    intro acc out k hk h
    obtain ⟨k2, v⟩ := p
    have hk2 : k ≠ k2 ∧ ¬ k ∈ dictKeys rest := by
      rw [dictKeys, List.map_cons, List.mem_cons] at hk
      push_neg at hk
      exact hk
    rw [validateLoop] at h
    cases her : entryResult cfg k2 v with
    | error e =>
      rw [her] at h
      cases h
    | ok w =>
      rw [her] at h
      cases w with
      | none => exact ih acc out k hk2.2 h
      | some w2 =>
        rw [ih (dictSet acc k2 w2) out k hk2.2 h,
          dictSet_alookup_ne _ _ _ _ hk2.1]

theorem validateLoop_skip (cfg : List (String × String)) (data : Dict)
    (k : String) (tg : String)
    (hcfg : alookup cfg k = some tg) (htag : tg = "auto" ∨ tg = "id") :
    ∀ (acc out : Dict), validateLoop cfg acc data = .ok out →
      alookup out k = alookup acc k := by
  induction data with
  | nil =>
    intro acc out h
    rw [validateLoop] at h
    injection h with h2
    rw [h2]
  | cons p rest ih =>
    intro acc out h
    obtain ⟨k2, v⟩ := p
    rw [validateLoop] at h
    by_cases hk2 : k2 = k
    · subst hk2
      have her : entryResult cfg k2 v = .ok none := by
        unfold entryResult
        simp only [hcfg]
        rw [if_pos htag]
      rw [her] at h
      exact ih acc out h
    · cases her : entryResult cfg k2 v with
      | error e =>
        rw [her] at h
        cases h
      | ok w =>
        rw [her] at h
        cases w with
        | none => exact ih acc out h
        | some w2 =>
          rw [ih (dictSet acc k2 w2) out h,
            dictSet_alookup_ne _ _ _ _ (fun he => hk2 he.symm)]

theorem validateLoop_pass (cfg : List (String × String)) (data : Dict)
    (k : String) (hcfg : alookup cfg k = none) :
    ∀ (acc out : Dict), (dictKeys data).Nodup →
      validateLoop cfg acc data = .ok out →
      alookup out k = (match alookup data k with
                       | some v => some v
                       | none => alookup acc k) := by
  induction data with
  | nil =>
    intro acc out _ h
    rw [validateLoop] at h
    injection h with h2
    rw [h2]
    rfl
  | cons p rest ih =>
    intro acc out hN h
    obtain ⟨k2, v⟩ := p
    have hN2 : (dictKeys rest).Nodup ∧ ¬ k2 ∈ dictKeys rest := by
      rw [dictKeys, List.map_cons, List.nodup_cons] at hN
      exact ⟨hN.2, hN.1⟩
    rw [validateLoop] at h
    by_cases hk2 : k2 = k
    · subst hk2
      have her : entryResult cfg k2 v = .ok (some v) := by
        unfold entryResult
        rw [hcfg]
      rw [her] at h
      rw [validateLoop_pres cfg rest (dictSet acc k2 v) out k2 hN2.2 h,
        dictSet_alookup_self, alookup_cons, if_pos rfl]
    · cases her : entryResult cfg k2 v with
      | error e =>
        rw [her] at h
        cases h
      | ok w =>
        rw [her] at h
        rw [alookup_cons, if_neg hk2]
        cases w with
        | none => exact ih acc out hN2.1 h
        | some w2 =>
          rw [ih (dictSet acc k2 w2) out hN2.1 h]
          cases alookup rest k with
          | some v2 => rfl
          | none =>
            exact dictSet_alookup_ne _ _ _ _ (fun he => hk2 he.symm)

/-- Claim C3 (corrected), amended claim: validation exempts a key from
coercion only through the config, not through its name: a row key — in
particular `id` or `created_at` — passes through unchanged exactly when it
is absent from the saved config, and is dropped when its declared tag is
`auto` or `id`; any ordinary declared tag (e.g. `created_at: int`) coerces
the value like any other column. -/
theorem c3_amended (s : DBState) (n : String) (data out : Dict) (k : String)
    (hN : (dictKeys data).Nodup)
    (hout : validate_data_with_config s n data = .ok out) :
    (alookup (cfgFor s n) k = none → alookup out k = alookup data k) ∧
    (∀ tg, alookup (cfgFor s n) k = some tg → (tg = "auto" ∨ tg = "id") →
      alookup out k = none) := by
  unfold validate_data_with_config at hout
  unfold cfgFor
  cases hcfg : get_table_config s n with
  | none =>
    simp only [hcfg] at hout
    injection hout with h2
    subst h2
    constructor
    · intro _
      rfl
    · intro tg htl
      rw [show alookup (Option.getD none []) k = none from rfl] at htl
      cases htl
  | some cfg =>
    simp only [hcfg] at hout
    by_cases hemp : cfg.isEmpty = true
    · rw [if_pos hemp] at hout
      injection hout with h2
      subst h2
      cases cfg with
      | nil =>
        constructor
        · intro _
          rfl
        · intro tg htl
          cases htl
      | cons q qs => cases hemp
    · rw [if_neg hemp] at hout
      constructor
      · intro hnone
        rw [validateLoop_pass cfg data k hnone [] out hN hout]
        cases hd : alookup data k with
        | some v => rfl
        | none => rfl
      · intro tg htl htag
        rw [validateLoop_skip cfg data k tg htl htag [] out hout]
        rfl

/-- Witness for the amended C3: `created_at` absent from the saved config
passes through unchanged. -/
theorem c3_amended_witness :
    (dictKeys [("created_at", Value.vStr "c0")]).Nodup ∧
    validate_data_with_config demoStateUsers "users"
        [("created_at", Value.vStr "c0")] = .ok [("created_at", Value.vStr "c0")] ∧
    ((alookup (cfgFor demoStateUsers "users") "created_at" = none →
      alookup [("created_at", Value.vStr "c0")] "created_at" =
        alookup [("created_at", Value.vStr "c0")] "created_at") ∧
     (∀ tg, alookup (cfgFor demoStateUsers "users") "created_at" = some tg →
       (tg = "auto" ∨ tg = "id") →
       alookup [("created_at", Value.vStr "c0")] "created_at" = none)) :=
  ⟨by decide, rfl,
   c3_amended demoStateUsers "users" [("created_at", Value.vStr "c0")]
     [("created_at", Value.vStr "c0")] "created_at" (by decide) rfl⟩

theorem coerceRowSpec_nil_cfg (data : Dict) : coerceRowSpec [] data = data := by
  induction data with
  | nil => rfl
  | cons p rest ih =>
    obtain ⟨k, v⟩ := p
    simp only [coerceRowSpec, List.filterMap_cons] at ih ⊢
    rw [show entryResult [] k v = .ok (some v) from rfl]
    rw [ih]

theorem entryResult_isOk_of_numericOk (cfg : List (String × String)) (k : String)
    (v : Value) (h : numericOk cfg k v) : (entryResult cfg k v).isOk = true := by
  unfold entryResult
  cases hc : alookup cfg k with
  | none => rfl
  | some tg =>
    dsimp only
    by_cases h1 : tg = "auto" ∨ tg = "id"
    · rw [if_pos h1]
      rfl
    · rw [if_neg h1]
      by_cases h2 : tg = "str"
      · rw [if_pos h2]
        rfl
      · rw [if_neg h2]
        by_cases h3 : tg = "int"
        · rw [if_pos h3]
          have hok := h.1 (by rw [hc, h3])
          cases hi : pyIntCoerce v with
          | ok i => rfl
          | error u =>
            rw [hi] at hok
            cases hok
        · rw [if_neg h3]
          by_cases h4 : tg = "float"
          · rw [if_pos h4]
            have hok := h.2 (by rw [hc, h4])
            cases hi : pyFloatCoerce v with
            | ok q => rfl
            | error u =>
              rw [hi] at hok
              cases hok
          · rw [if_neg h4]
            by_cases h5 : tg = "bool"
            · rw [if_pos h5]
              rfl
            · rw [if_neg h5]
              rfl

theorem entryResult_error_char (cfg : List (String × String)) (k : String)
    (v : Value) (e : ValErr) (h : entryResult cfg k v = .error e) :
    (e = .invalid k "int" ∧ alookup cfg k = some "int" ∧
      (pyIntCoerce v).isOk = false) ∨
    (e = .invalid k "float" ∧ alookup cfg k = some "float" ∧
      (pyFloatCoerce v).isOk = false) := by
  unfold entryResult at h
  cases hc : alookup cfg k with
  | none =>
    rw [hc] at h
    cases h
  | some tg =>
    simp only [hc] at h
    by_cases h1 : tg = "auto" ∨ tg = "id"
    · rw [if_pos h1] at h
      cases h
    · rw [if_neg h1] at h
      by_cases h2 : tg = "str"
      · rw [if_pos h2] at h
        cases h
      · rw [if_neg h2] at h
        by_cases h3 : tg = "int"
        · rw [if_pos h3] at h
          cases hi : pyIntCoerce v with
          | ok i =>
            rw [hi] at h
            cases h
          | error u =>
            rw [hi] at h
            injection h with h4
            exact Or.inl ⟨h4.symm, by rw [h3], rfl⟩
        · rw [if_neg h3] at h
          by_cases h4 : tg = "float"
          · rw [if_pos h4] at h
            cases hi : pyFloatCoerce v with
            | ok q =>
              rw [hi] at h
              cases h
            | error u =>
              rw [hi] at h
              injection h with h5
              exact Or.inr ⟨h5.symm, by rw [h4], rfl⟩
          · rw [if_neg h4] at h
            by_cases h5 : tg = "bool"
            · rw [if_pos h5] at h
              cases h
            · rw [if_neg h5] at h
              cases h

theorem validateLoop_all_ok (cfg : List (String × String)) (data : Dict) :
    ∀ acc : Dict,
      (∀ p ∈ data, (entryResult cfg p.1 p.2).isOk = true) →
      (∀ kk ∈ dictKeys data, ¬ kk ∈ dictKeys acc) →
      (dictKeys data).Nodup →
      validateLoop cfg acc data = .ok (acc ++ coerceRowSpec cfg data) := by
  induction data with
  | nil =>
    intro acc _ _ _
    rw [validateLoop]
    rw [show coerceRowSpec cfg [] = [] from rfl, List.append_nil]
  | cons p rest ih =>
    intro acc hall hdisj hN
    obtain ⟨k, v⟩ := p
    have hNparts : ¬ k ∈ dictKeys rest ∧ (dictKeys rest).Nodup := by
      rw [dictKeys, List.map_cons, List.nodup_cons] at hN
      exact hN
    have hok := hall (k, v) (List.mem_cons_self _ _)
    have hallrest : ∀ p ∈ rest, (entryResult cfg p.1 p.2).isOk = true :=
      fun p hp => hall p (List.mem_cons_of_mem _ hp)
    rw [validateLoop]
    cases her : entryResult cfg k v with
    | error e =>
      rw [her] at hok
      cases hok
    | ok w =>
      cases w with
      | none =>
        rw [show coerceRowSpec cfg ((k, v) :: rest) = coerceRowSpec cfg rest by
          simp only [coerceRowSpec, List.filterMap_cons, her]]
        exact ih acc hallrest
          (fun kk hkk => hdisj kk (List.mem_cons_of_mem _ hkk)) hNparts.2
      | some w2 =>
        show validateLoop cfg (dictSet acc k w2) rest =
          Except.ok (acc ++ coerceRowSpec cfg ((k, v) :: rest))
        have hknotacc : ¬ k ∈ dictKeys acc :=
          hdisj k (by rw [dictKeys, List.map_cons]; exact List.mem_cons_self _ _)
        have hany : acc.any (fun p => p.1 = k) = false := by
          rw [List.any_eq_false]
          intro p hp
          simp only [decide_eq_true_eq]
          intro he
          exact hknotacc (List.mem_map.mpr ⟨p, hp, he⟩)
        rw [dictSet_eq_append _ _ _ hany]
        rw [show coerceRowSpec cfg ((k, v) :: rest) = (k, w2) :: coerceRowSpec cfg rest by
          simp only [coerceRowSpec, List.filterMap_cons, her]]
        rw [ih (acc ++ [(k, w2)]) hallrest ?_ hNparts.2]
        · rw [List.append_assoc]
          rfl
        · intro kk hkk
          rw [dictKeys, List.map_append, List.mem_append]
          push_neg
          constructor
          · exact hdisj kk (List.mem_cons_of_mem _ hkk)
          · intro hmem
            simp only [List.map_cons, List.map_nil, List.mem_singleton] at hmem
            subst hmem
            exact hNparts.1 hkk

theorem validateLoop_error (cfg : List (String × String)) (data : Dict) :
    ∀ (acc : Dict) (e : ValErr), validateLoop cfg acc data = .error e →
      ∃ k v, (k, v) ∈ data ∧ entryResult cfg k v = .error e := by
  induction data with
  | nil =>
    intro acc e h
    rw [validateLoop] at h
    cases h
  | cons p rest ih =>
    intro acc e h
    obtain ⟨k, v⟩ := p
    rw [validateLoop] at h
    cases her : entryResult cfg k v with
    | error e2 =>
      rw [her] at h
      injection h with h2
      exact ⟨k, v, List.mem_cons_self _ _, by rw [her, h2]⟩
    | ok w =>
      rw [her] at h
      cases w with
      | none =>
        obtain ⟨k2, v2, hmem, he⟩ := ih acc e h
        exact ⟨k2, v2, List.mem_cons_of_mem _ hmem, he⟩
      | some w2 =>
        obtain ⟨k2, v2, hmem, he⟩ := ih (dictSet acc k w2) e h
        exact ⟨k2, v2, List.mem_cons_of_mem _ hmem, he⟩

theorem numericOk_of_entryOk (cfg : List (String × String)) (k : String)
    (v : Value) (h : (entryResult cfg k v).isOk = true) : numericOk cfg k v := by
  constructor
  · intro hci
    unfold entryResult at h
    rw [hci] at h
    dsimp only at h
    rw [if_neg (by decide), if_neg (by decide), if_pos rfl] at h
    cases hi : pyIntCoerce v with
    | ok i => rfl
    | error u =>
      rw [hi] at h
      exact Bool.noConfusion h
  · intro hci
    unfold entryResult at h
    rw [hci] at h
    dsimp only at h
    rw [if_neg (by decide), if_neg (by decide), if_neg (by decide), if_pos rfl] at h
    cases hi : pyFloatCoerce v with
    | ok q => rfl
    | error u =>
      rw [hi] at h
      exact Bool.noConfusion h

theorem validateLoop_ok_all (cfg : List (String × String)) (data : Dict) :
    ∀ (acc out : Dict), validateLoop cfg acc data = .ok out →
      ∀ p ∈ data, (entryResult cfg p.1 p.2).isOk = true := by
  induction data with
  | nil =>
    intro acc out _ p hp
    cases hp
  | cons q rest ih =>
    intro acc out h p hp
    obtain ⟨k, v⟩ := q
    rw [validateLoop] at h
    cases her : entryResult cfg k v with
    | error e =>
      rw [her] at h
      cases h
    | ok w =>
      rw [her] at h
      rcases List.mem_cons.mp hp with rfl | hp2
      · rw [her]
        rfl
      · cases w with
        | none => exact ih acc out h p hp2
        | some w2 => exact ih (dictSet acc k w2) out h p hp2

/-- Claim C4 (confirmed): validation fails with the error naming the
offending column and its expected numeric tag EXACTLY when some present
value under an `int`-tagged (resp. `float`-tagged) key does not convert as
an integer (resp. floating-point number).  The four conjuncts give both
directions: (1) when every such value converts, validation succeeds and
returns the coerced row (`coerceRowSpec`); (2) a raised error names a
column that genuinely holds a non-convertible value under that numeric
tag; (3) success forces every numeric-tagged value to convert; (4) a
non-convertible value under an `int`/`float` tag forces an `InvalidType`
failure carrying a numeric tag.  E.g. `{"name": "Alice", "age": "30"}`
under `{"name": "str", "age": "int"}` coerces to
`{"name": "Alice", "age": 30}`, while `{"age": "not-a-number"}` fails for
column `age` (see the witness). -/
theorem c4_validate_numeric (s : DBState) (n : String) (data : Dict)
    (hN : (dictKeys data).Nodup) :
    ((∀ p ∈ data, numericOk (cfgFor s n) p.1 p.2) →
      validate_data_with_config s n data = .ok (coerceRowSpec (cfgFor s n) data)) ∧
    (∀ k tg, validate_data_with_config s n data = .error (.invalid k tg) →
      ∃ v, (k, v) ∈ data ∧ alookup (cfgFor s n) k = some tg ∧
        ((tg = "int" ∧ (pyIntCoerce v).isOk = false) ∨
         (tg = "float" ∧ (pyFloatCoerce v).isOk = false))) ∧
    (∀ out, validate_data_with_config s n data = .ok out →
      ∀ p ∈ data, numericOk (cfgFor s n) p.1 p.2) ∧
    ((∃ p ∈ data, ¬ numericOk (cfgFor s n) p.1 p.2) →
      ∃ k tg, validate_data_with_config s n data = .error (.invalid k tg) ∧
        (tg = "int" ∨ tg = "float")) := by
  have h12 : ((∀ p ∈ data, numericOk (cfgFor s n) p.1 p.2) →
      validate_data_with_config s n data = .ok (coerceRowSpec (cfgFor s n) data)) ∧
    (∀ k tg, validate_data_with_config s n data = .error (.invalid k tg) →
      ∃ v, (k, v) ∈ data ∧ alookup (cfgFor s n) k = some tg ∧
        ((tg = "int" ∧ (pyIntCoerce v).isOk = false) ∨
         (tg = "float" ∧ (pyFloatCoerce v).isOk = false))) := by
    unfold validate_data_with_config cfgFor
    cases hcfg : get_table_config s n with
    | none =>
      constructor
      · intro _
        rw [show Option.getD (none : Option (List (String × String))) [] = [] from rfl,
          coerceRowSpec_nil_cfg]
      · intro k tg h
        cases h
    | some cfg =>
      dsimp only
      by_cases hemp : cfg.isEmpty = true
      · rw [if_pos hemp]
        cases cfg with
        | nil =>
          constructor
          · intro _
            rw [show Option.getD (some ([] : List (String × String))) [] = [] from rfl,
              coerceRowSpec_nil_cfg]
          · intro k tg h
            cases h
        | cons q qs => cases hemp
      · rw [if_neg hemp]
        constructor
        · intro hall
          have hall2 : ∀ p ∈ data, (entryResult cfg p.1 p.2).isOk = true :=
            fun p hp => entryResult_isOk_of_numericOk cfg p.1 p.2 (hall p hp)
          have hrun := validateLoop_all_ok cfg data [] hall2 (by
              intro kk _
              simp [dictKeys]) hN
          rw [hrun, List.nil_append]
          rfl
        · intro k tg herr
          obtain ⟨k2, v, hmem, he⟩ := validateLoop_error cfg data [] _ herr
          rcases entryResult_error_char cfg k2 v _ he with ⟨he1, hc, hf⟩ | ⟨he1, hc, hf⟩
          · injection he1 with hk htg
            subst hk
            subst htg
            exact ⟨v, hmem, hc, Or.inl ⟨rfl, hf⟩⟩
          · injection he1 with hk htg
            subst hk
            subst htg
            exact ⟨v, hmem, hc, Or.inr ⟨rfl, hf⟩⟩
  have h3 : ∀ out, validate_data_with_config s n data = .ok out →
      ∀ p ∈ data, numericOk (cfgFor s n) p.1 p.2 := by
    unfold validate_data_with_config cfgFor
    cases hcfg : get_table_config s n with
    | none =>
      intro out _ p _
      constructor
      · intro hci
        simp [alookup] at hci
      · intro hci
        simp [alookup] at hci
    | some cfg =>
      dsimp only
      by_cases hemp : cfg.isEmpty = true
      · rw [if_pos hemp]
        cases cfg with
        | nil =>
          intro out _ p _
          constructor
          · intro hci
            simp [alookup] at hci
          · intro hci
            simp [alookup] at hci
        | cons q qs => cases hemp
      · rw [if_neg hemp]
        intro out hout p hp
        exact numericOk_of_entryOk cfg p.1 p.2
          (validateLoop_ok_all cfg data [] out hout p hp)
  have h4 : (∃ p ∈ data, ¬ numericOk (cfgFor s n) p.1 p.2) →
      ∃ k tg, validate_data_with_config s n data = .error (.invalid k tg) ∧
        (tg = "int" ∨ tg = "float") := by
    intro hex
    obtain ⟨p, hp, hbad⟩ := hex
    cases hv : validate_data_with_config s n data with
    | ok out => exact absurd (h3 out hv p hp) hbad
    | error e =>
      cases e with
      | invalid k tg =>
        obtain ⟨v, _, _, hor⟩ := h12.2 k tg hv
        refine ⟨k, tg, rfl, ?_⟩
        rcases hor with ⟨htg, _⟩ | ⟨htg, _⟩
        · exact Or.inl htg
        · exact Or.inr htg
  exact ⟨h12.1, h12.2, h3, h4⟩

/-- Witness for C4: the spec's worked example.  Under the saved config
`{"name": "str", "age": "int"}` the row `{"name": "Alice", "age": "30"}`
validates to `{"name": "Alice", "age": 30}` with `age` a number, and the
row `{"age": "not-a-number"}` — whose value fails integer parsing — is
forced into the `InvalidType` failure naming column `age` and tag `int`,
by the theorem's failure direction. -/
theorem c4_validate_numeric_witness :
    (dictKeys [("name", Value.vStr "Alice"), ("age", Value.vStr "30")]).Nodup ∧
    validate_data_with_config demoStateUsers "users"
        [("name", Value.vStr "Alice"), ("age", Value.vStr "30")] =
      .ok (coerceRowSpec (cfgFor demoStateUsers "users")
        [("name", Value.vStr "Alice"), ("age", Value.vStr "30")]) ∧
    coerceRowSpec (cfgFor demoStateUsers "users")
        [("name", Value.vStr "Alice"), ("age", Value.vStr "30")] =
      [("name", Value.vStr "Alice"), ("age", Value.vInt 30)] ∧
    (∃ k tg, validate_data_with_config demoStateUsers "users"
        [("age", Value.vStr "not-a-number")] = .error (.invalid k tg) ∧
        (tg = "int" ∨ tg = "float")) ∧
    validate_data_with_config demoStateUsers "users"
        [("age", Value.vStr "not-a-number")] =
      .error (.invalid "age" "int") :=
  ⟨by decide,
   (c4_validate_numeric demoStateUsers "users"
      [("name", Value.vStr "Alice"), ("age", Value.vStr "30")] (by decide)).1
     (by decide),
   rfl,
   (c4_validate_numeric demoStateUsers "users"
      [("age", Value.vStr "not-a-number")] (by decide)).2.2.2
     ⟨("age", Value.vStr "not-a-number"), List.mem_cons_self _ _, by decide⟩,
   rfl⟩
